import Mathlib
/-!
Verification of the Mars filter-engine knowledge pipeline
(`src/filter-engine/packages/knowledge-pipeline`).

This file gives a shallow embedding, in Lean 4, of the pipeline components
that the verified properties concern:

* the affix relationship graph and its weight-propagation pass
  (`graph/affix_graph.py`),
* the consensus engine (`consensus/engine.py`),
* the source validator (`validation/validator.py`),
* the inheritance resolver (`inheritance/resolver.py` and
  `inheritance/nodes.py`),
* the orchestrator's output-writing decision (`pipeline.py`).

Python floats are modelled as rational numbers `ℚ`; the two places where the
source computes a square root (`statistics.stdev`) are modelled over `ℝ`
with `Real.sqrt`, and comparisons against a standard deviation are modelled
by the equivalent comparison of squares (noted at the definition).
Python dicts are modelled as association lists in insertion order, which is
exactly the iteration order Python guarantees.
-/
namespace Mars
/-! ## Weight maps

`dict[int, float]` values (affix id → weight) as association lists in
insertion order.  A Python dict holds at most one entry per key; `wget`
reads the first entry with the key, `wset` updates the first entry in
place or appends a fresh entry at the end, exactly like dict assignment. -/
abbrev WMap := List (ℤ × ℚ)
/-- Model of `d.get(k, default)`. -/
def wget (m : WMap) (k : ℤ) (d : ℚ) : ℚ :=
  match m.find? (fun p => p.1 = k) with
  | some p => p.2
  | none => d
/-- Model of `d[k] = v`: replace in place if the key exists, else append. -/
def wset : WMap → ℤ → ℚ → WMap
  | [], k, v => [(k, v)]
  | p :: rest, k, v => if p.1 = k then (k, v) :: rest else p :: wset rest k v
/-- Model of `list(d.keys())`. -/
def wkeys (m : WMap) : List ℤ := m.map Prod.fst
/-! ## Python string primitives

The condition grammar of `graph/affix_graph.py` manipulates strings with
`str.strip`, `str.lower`, `str.split(sep)`, `str.split(sep, 1)` and the
`in` containment test.  They are modelled here over `List Char` so that
every definition evaluates by kernel reduction. -/
/-- Bool test that `sep` is an initial segment of the second list. -/
def startsWith : List Char → List Char → Bool
  | [], _ => true
  | _ :: _, [] => false
  | a :: as, b :: bs => a = b && startsWith as bs
/-- Model of `str.strip()`: drop whitespace from both ends. -/
def trimChars (l : List Char) : List Char :=
  ((l.dropWhile Char.isWhitespace).reverse.dropWhile Char.isWhitespace).reverse
/-- Worker for `str.split(sep)`: scan left to right, cutting at every
non-overlapping occurrence of `sep`.  The fuel argument (instantiated with
the length of the scanned list) only makes the recursion structural; one
fuel unit is spent per consumed character, so it never runs out. -/
def splitCharsF (sep : List Char) : ℕ → List Char → List Char → List (List Char)
  | _, [], acc => [acc.reverse]
  | 0, s, acc => [acc.reverse ++ s]
  | fuel + 1, c :: rest, acc =>
    if startsWith sep (c :: rest) && !sep.isEmpty then
      acc.reverse :: splitCharsF sep fuel (List.drop (sep.length - 1) rest) []
    else
      splitCharsF sep fuel rest (c :: acc)
/-- Worker for `str.split(sep, 1)`: cut at the first occurrence only. -/
def splitOnceCharsF (sep : List Char) : ℕ → List Char → List Char → List (List Char)
  | _, [], acc => [acc.reverse]
  | 0, s, acc => [acc.reverse ++ s]
  | fuel + 1, c :: rest, acc =>
    if startsWith sep (c :: rest) && !sep.isEmpty then
      [acc.reverse, List.drop (sep.length - 1) rest]
    else
      splitOnceCharsF sep fuel rest (c :: acc)
/-- Bool test that `sub` occurs somewhere in the list (Python `in`). -/
def hasSubstr : List Char → List Char → Bool
  | [], sub => sub.isEmpty
  | c :: rest, sub => startsWith sub (c :: rest) || hasSubstr rest sub
def pyStrip (s : String) : String := ⟨trimChars s.data⟩
def pyLower (s : String) : String := ⟨s.data.map Char.toLower⟩
def pySplit (s sep : String) : List String :=
  (splitCharsF sep.data s.data.length s.data []).map fun l => ⟨l⟩
def pySplitOnce (s sep : String) : List String :=
  (splitOnceCharsF sep.data s.data.length s.data []).map fun l => ⟨l⟩
def pyContains (s sub : String) : Bool := hasSubstr s.data sub.data
/-! ## Affix relationship graph (`graph/affix_graph.py`)

`AffixEdge` mirrors the dataclass of the same name (its `type` field is
called `etype` here because `type` reads poorly in Lean).  A constructed
`networkx.DiGraph` is modelled by its edge list, one entry per
`(from_id, to_id)` pair in insertion order, which is how `out_edges`
iterates. -/
structure AffixEdge where
  from_id : ℤ
  to_id : ℤ
  etype : String
  strength : ℚ
  condition : Option String
/-- Model of `self._graph.out_edges(a, data=True)`. -/
def outEdges (g : List AffixEdge) (a : ℤ) : List AffixEdge :=
  g.filter fun e => e.from_id = a
/-- Model of `self._graph.has_node(a)`: `a` is an endpoint of some edge. -/
def hasNode (g : List AffixEdge) (a : ℤ) : Bool :=
  g.any fun e => e.from_id = a || e.to_id = a
/-- Values of the build-context dict: scalar strings or lists of strings. -/
inductive CtxVal where
  | str (v : String)
  | list (vs : List String)
abbrev BuildContext := List (String × CtxVal)
/-- Model of `key in build_context`. -/
def ctxHas (ctx : BuildContext) (k : String) : Bool :=
  ctx.any fun p => p.1 == k
/-- Model of `build_context.get(key)`. -/
def ctxGet (ctx : BuildContext) (k : String) : Option CtxVal :=
  (ctx.find? fun p => p.1 == k).map fun p => p.2
/-- Model of `_evaluate_condition` (affix_graph.py lines 42-98) on an
already-unwrapped condition string.  The fuel argument makes the
recursion on split parts structural; it is instantiated with
`length + 1`, and every recursive call is on a part at least two
characters shorter than its parent (a `&&`/`||` separator is consumed),
so the fuel-exhaustion clause is never reached. -/
def evalCondFuel (ctx : BuildContext) : ℕ → String → Bool
  | 0, _ => true
  | fuel + 1, cond =>
    let c := pyStrip cond
    if pyContains c "&&" then
      (pySplit c "&&").all fun p => evalCondFuel ctx fuel (pyStrip p)
    else if pyContains c "||" then
      (pySplit c "||").any fun p => evalCondFuel ctx fuel (pyStrip p)
    else if pyContains c "==" then
      match (pySplitOnce c "==").map pyStrip with
      | [key0, expected0] =>
        let expectedLower := pyLower expected0
        -- Resolve a scalar key to the pluralized list key when absent.
        let key := if !(ctxHas ctx key0) && ctxHas ctx (key0 ++ "s") then key0 ++ "s" else key0
        match ctxGet ctx key with
        | some (CtxVal.list vs) => vs.any fun v => pyLower v == expectedLower
        | some (CtxVal.str v) => pyLower v == expectedLower
        | none => ("" == expectedLower)
      -- `condition.split("==", 1)` of a string containing `==` always has
      -- two parts, so this clause mirrors the unreachable `len(parts) != 2`
      -- guard: unparseable, assume satisfied.
      | _ => true
    -- Unknown format — conservative: do not zero.
    else true
/-- Model of `_evaluate_condition(condition, build_context)`. -/
def evalCondition (cond : Option String) (ctx : BuildContext) : Bool :=
  match cond with
  | none => true
  | some c => evalCondFuel ctx (c.data.length + 1) c
/-- One step of the SYNERGY pass (affix_graph.py lines 166-180): skip the
affix unless its input weight strictly exceeds the trigger, then add
`strength * boost` to each outgoing SYNERGY neighbour, capped at 100. -/
def synergyFold (g : List AffixEdge) (trigger boost : ℚ) (result : WMap)
    (p : ℤ × ℚ) : WMap :=
  if p.2 ≤ trigger then result
  else if hasNode g p.1 = false then result
  else (outEdges g p.1).foldl
    (fun r e =>
      if e.etype = "SYNERGY" then
        wset r e.to_id (min 100 (wget r e.to_id 0 + e.strength * boost))
      else r)
    result
/-- Pass 1 of `propagate_weights`: iterate over the input `weights.items()`
(not the updated copy), mutating the shallow copy `result`. -/
def synergyPass (g : List AffixEdge) (weights : WMap) (trigger boost : ℚ) : WMap :=
  weights.foldl (synergyFold g trigger boost) weights
/-- One step of the PREREQUISITE pass (affix_graph.py lines 183-196): zero
the affix on the first outgoing PREREQUISITE edge whose condition fails
(`find?` realizes the `break`). -/
def prereqCheck (g : List AffixEdge) (ctx : BuildContext) (result : WMap)
    (a : ℤ) : WMap :=
  if hasNode g a = false then result
  else
    match (outEdges g a).find?
        (fun e => e.etype == "PREREQUISITE" && !(evalCondition e.condition ctx)) with
    | some _ => wset result a 0
    | none => result
/-- Pass 2 of `propagate_weights`: iterate over `list(result.keys())`. -/
def prereqPass (g : List AffixEdge) (result : WMap) (ctx : BuildContext) : WMap :=
  (wkeys result).foldl (prereqCheck g ctx) result
/-- Model of `AffixRelationshipGraph.propagate_weights`
(affix_graph.py lines 144-198). -/
def propagateWeights (g : List AffixEdge) (weights : WMap) (ctx : BuildContext)
    (trigger boost : ℚ) : WMap :=
  prereqPass g (synergyPass g weights trigger boost) ctx
/-! ### Characterization of the SYNERGY pass as a flat list of boosts -/
/-- The (target, strength) boosts contributed by one input entry. -/
def synergyStepBoosts (g : List AffixEdge) (trigger : ℚ) (p : ℤ × ℚ) :
    List (ℤ × ℚ) :=
  if p.2 ≤ trigger then []
  else if hasNode g p.1 = false then []
  else ((outEdges g p.1).filter fun e => e.etype = "SYNERGY").map
    fun e => (e.to_id, e.strength)
/-- All boosts fired by the SYNERGY pass, in execution order. -/
def triggeredBoosts (g : List AffixEdge) (w : WMap) (trigger : ℚ) :
    List (ℤ × ℚ) :=
  w.flatMap (synergyStepBoosts g trigger)
/-- Apply a flat list of (target, strength) boosts in order. -/
def applyBoosts (l : List (ℤ × ℚ)) (m : WMap) (boost : ℚ) : WMap :=
  l.foldl (fun r p => wset r p.1 (min 100 (wget r p.1 0 + p.2 * boost))) m
/-! ## Pipeline configuration (`config.py`)

Only the fields consumed by the embedded components are modelled; every
default value is the dataclass default from `config.py`. -/
structure PipelineConfigE where
  min_unique_affixes : ℕ := 15
  min_sources_for_override : ℕ := 3
  supplementary_quality_threshold : ℚ := 2/5
  quality_weights : List (String × ℚ) :=
    [("specificity", 3/10), ("affix_coverage", 1/4), ("phase_coverage", 1/5),
     ("recency", 3/20), ("consensus_alignment", 1/10)]
  synergy_boost_per_strength : ℚ := 15
  synergy_trigger_weight : ℚ := 60
  outlier_std_dev_threshold : ℚ := 2
  universal_baseline_weights : List (String × ℚ) :=
    [("added_health", 70), ("added_vitality", 65), ("movement_speed", 60)]
/-- The default configuration (`PipelineConfig()`). -/
def cfgDefault : PipelineConfigE := {}
/-- Model of `PipelineConfig.tier_to_category`. -/
def tierToCategory (t : ℤ) : String :=
  if 7 ≤ t then "essential"
  else if 5 ≤ t then "strong"
  else if 3 ≤ t then "useful"
  else "filler"
/-- Model of Python `round(x, 2)`.  Mathlib rounds exact halves up while
Python rounds them to even; none of the values examined below is an exact
tie, so the two agree everywhere they are used. -/
def roundQ2 (x : ℚ) : ℚ := ((round (x * 100) : ℤ) : ℚ) / 100
/-- Model of Python `round(x, 4)` on rationals (same tie caveat). -/
def roundQ4 (x : ℚ) : ℚ := ((round (x * 10000) : ℤ) : ℚ) / 10000
/-- Model of Python `round(x, 4)` on reals (same tie caveat). -/
noncomputable def roundR4 (x : ℝ) : ℝ := ((round (x * 10000) : ℤ) : ℝ) / 10000
/-! ## Consensus engine (`consensus/engine.py`) -/
/-- Model of the `ExtractedWeight` dataclass (`domain/models.py`). -/
structure ExtractedWeightE where
  affix_id : ℤ
  phase : String
  weight : ℚ
  min_tier : Option ℤ
  category : String
  derivation_method : String
  source_id : String
/-- One tuple `(weight, quality, min_tier, category, source_id)` appended to
a `(affix_id, phase)` group in `ConsensusEngine.merge` (engine.py line 84). -/
structure ObsEntry where
  weight : ℚ
  quality : ℚ
  min_tier : Option ℤ
  category : String
  source_id : String
/-- Model of `quality_scores.get(ew.source_id, 0.5)` (engine.py line 83):
sources missing from the quality map contribute with quality 0.5. -/
def lookupQuality (qs : List (String × ℚ)) (sid : String) : ℚ :=
  match qs.find? (fun p => p.1 == sid) with
  | some p => p.2
  | none => 1/2
/-- The group keys of the `defaultdict`, in first-occurrence order. -/
def groupKeysOf (ews : List ExtractedWeightE) : List (ℤ × String) :=
  ews.foldl
    (fun acc ew =>
      if (ew.affix_id, ew.phase) ∈ acc then acc else acc ++ [(ew.affix_id, ew.phase)])
    []
/-- The entry list of one `(affix_id, phase)` group, in append order. -/
def groupEntriesFor (ews : List ExtractedWeightE) (qs : List (String × ℚ))
    (key : ℤ × String) : List ObsEntry :=
  (ews.filter fun ew => ew.affix_id = key.1 ∧ ew.phase = key.2).map fun ew =>
    ⟨ew.weight, lookupQuality qs ew.source_id, ew.min_tier, ew.category, ew.source_id⟩
/-- Model of `statistics.mean`. -/
def listMean (xs : List ℚ) : ℚ := xs.sum / xs.length
/-- The square of `statistics.stdev` (sample variance, denominator n-1). -/
def sampleVariance (xs : List ℚ) : ℚ :=
  ((xs.map fun x => (x - listMean xs) ^ 2).sum) / ((xs.length : ℚ) - 1)
/-- Model of `_weighted_average` (engine.py lines 31-36). -/
def weightedAverage (ws qs : List ℚ) : ℚ :=
  let total := qs.sum
  if total = 0 then (if ws ≠ [] then ws.sum / (ws.length : ℚ) else 0)
  else ((ws.zip qs).map fun p => p.1 * p.2).sum / total
/-- The sequence of `(w, q)` pairs visited by the outlier loop.  The Python
line (engine.py line 105) is
`for w, q, *_ in zip(raw_weights, raw_qualities, *zip(*entries[0:1])):`.
When `entries` is non-empty, `zip(*entries[0:1])` yields five one-element
iterables (the fields of the first entry), so the seven-argument `zip`
stops after one item; with `entries` empty it contributes no extra
iterables and the zip runs over the two lists in full. -/
def outlierLoopItems (raw_w raw_q : List ℚ) (entries : List ObsEntry) :
    List (ℚ × ℚ) :=
  match entries with
  | [] => raw_w.zip raw_q
  | _ :: _ => (raw_w.zip raw_q).take 1
/-- The loop body of the outlier filter (engine.py lines 105-116).  The
source test is `abs(w - mean) > std_threshold * stdev`; it is modelled by
the equivalent comparison of squares (`stdev` is the square root of the
sample variance and the threshold is nonnegative). -/
def outlierStep (cfg : PipelineConfigE) (m v : ℚ) (acc : List ℚ × List ℚ × Bool)
    (wq : ℚ × ℚ) : List ℚ × List ℚ × Bool :=
  if (wq.1 - m) ^ 2 > cfg.outlier_std_dev_threshold ^ 2 * v then
    if wq.2 < cfg.supplementary_quality_threshold then acc
    else (acc.1 ++ [wq.1], acc.2.1 ++ [wq.2], true)
  else (acc.1 ++ [wq.1], acc.2.1 ++ [wq.2], acc.2.2)
/-- Model of the outlier-detection block of `ConsensusEngine.merge`
(engine.py lines 96-124): returns the filtered weight list, the filtered
quality list and the `outlier_kept` flag. -/
def outlierFilter (cfg : PipelineConfigE) (entries : List ObsEntry) :
    List ℚ × List ℚ × Bool :=
  let raw_w := entries.map fun e => e.weight
  let raw_q := entries.map fun e => e.quality
  if 3 ≤ raw_w.length then
    let m := listMean raw_w
    let v := sampleVariance raw_w
    let r := (outlierLoopItems raw_w raw_q entries).foldl (outlierStep cfg m v)
      ([], [], false)
    if r.1 = [] then (raw_w, raw_q, r.2.2) else r
  else (raw_w, raw_q, false)
def survivingWeights (cfg : PipelineConfigE) (entries : List ObsEntry) : List ℚ :=
  (outlierFilter cfg entries).1
def survivingQualities (cfg : PipelineConfigE) (entries : List ObsEntry) : List ℚ :=
  (outlierFilter cfg entries).2.1
def outlierKeptFlag (cfg : PipelineConfigE) (entries : List ObsEntry) : Bool :=
  (outlierFilter cfg entries).2.2
/-- Model of the weighted-average and low-confidence-clamping steps of
`ConsensusEngine.merge` (engine.py lines 126-149). -/
def consensusWeightVal (cfg : PipelineConfigE) (entries : List ObsEntry)
    (baseline : Option WMap) (affix_id : ℤ) : ℚ :=
  let fw := survivingWeights cfg entries
  let fq := survivingQualities cfg entries
  let cw := weightedAverage fw fq
  match baseline with
  | none => cw
  | some bm =>
      if fw.length < cfg.min_sources_for_override then
        let b := wget bm affix_id 0
        if 0 < b then cw * (1 - 1/2) + b * (1/2) else cw
      else cw
/-- Model of the spread computation of `ConsensusEngine.merge` (engine.py
lines 151-160): normalized sample standard deviation of the surviving
weights, plus the 0.1 retained-outlier penalty, capped at 1. -/
noncomputable def consensusSpreadVal (cfg : PipelineConfigE)
    (entries : List ObsEntry) : ℝ :=
  let fw := survivingWeights cfg entries
  let base : ℝ :=
    if 2 ≤ fw.length then min 1 (Real.sqrt ((sampleVariance fw : ℚ) : ℝ) / 50)
    else 0
  if outlierKeptFlag cfg entries then min 1 (base + 1/10) else base
/-- Model of `_compute_confidence` (engine.py lines 39-54). -/
noncomputable def computeConfidence (spread : ℝ) (source_count : ℕ)
    (quality_avg : ℚ) : ℝ :=
  let source_factor : ℝ := min 1 ((source_count : ℝ) / 5)
  let spread_factor : ℝ := max 0 (1 - spread)
  roundR4 (min 1 ((quality_avg : ℝ) * (2/5) + spread_factor * (2/5) + source_factor * (1/5)))
/-- Model of `max(category_votes, key=lambda k: category_votes[k])`: the
first key, in first-occurrence order, attaining the maximal vote count. -/
def majorityCategory (cats : List String) : Option String :=
  let keys := cats.foldl (fun acc c => if c ∈ acc then acc else acc ++ [c]) []
  keys.foldl
    (fun best c =>
      match best with
      | none => some c
      | some b =>
          if (cats.filter fun x => x == c).length > (cats.filter fun x => x == b).length
          then some c else best)
    none
/-- Model of the category vote (engine.py lines 171-177). -/
def finalCategory (entries : List ObsEntry) (cw : ℚ) : String :=
  match majorityCategory (entries.map fun e => e.category) with
  | some c => c
  | none => tierToCategory (Int.floor (cw / 15))
/-- Model of `min(min_tiers) if min_tiers else None` (engine.py line 179). -/
def minTierVal (entries : List ObsEntry) : Option ℤ :=
  match entries.filterMap (fun e => e.min_tier) with
  | [] => none
  | t :: rest => some (rest.foldl min t)
/-- Model of the `ConsensusWeight` dataclass (`domain/models.py`). -/
structure ConsensusWeightE where
  affix_id : ℤ
  phase : String
  weight : ℚ
  category : String
  min_tier : Option ℤ
  consensus_spread : ℝ
  confidence : ℝ
  source_count : ℕ
/-- The `ConsensusWeight` produced for one `(affix_id, phase)` group
(engine.py lines 90-190). -/
noncomputable def mkConsensusWeight (cfg : PipelineConfigE) (key : ℤ × String)
    (entries : List ObsEntry) (baseline : Option WMap) : ConsensusWeightE :=
  let cw := consensusWeightVal cfg entries baseline key.1
  let n := (survivingWeights cfg entries).length
  let qavg : ℚ := if 0 < n then (survivingQualities cfg entries).sum / (n : ℚ) else 0
  let spread := consensusSpreadVal cfg entries
  { affix_id := key.1
    phase := key.2
    weight := roundQ2 cw
    category := finalCategory entries cw
    min_tier := minTierVal entries
    consensus_spread := roundR4 spread
    confidence := computeConfidence spread n qavg
    source_count := n }
/-- Model of `ConsensusEngine.merge` (engine.py lines 65-192). -/
noncomputable def mergeE (cfg : PipelineConfigE) (ews : List ExtractedWeightE)
    (qs : List (String × ℚ)) (baseline : Option WMap) : List ConsensusWeightE :=
  (groupKeysOf ews).map fun key =>
    mkConsensusWeight cfg key (groupEntriesFor ews qs key) baseline
/-! ## Source validator (`validation/validator.py`)

The phase data of a `RawSource` is modelled by what
`_extract_all_affix_ids` reads from it: each planner entry by its
`affix_id`, each strictness level by its id list. -/

structure PhaseDataE where
  affixes : List ℤ
  strictness_affixes : List (String × List ℤ)

/-- Model of the `RawSource` fields consumed by `SourceValidator`. -/
structure RawSourceE where
  source_id : String
  source_type : String
  checksum : String
  covered_masteries : List String
  phases : List (String × PhaseDataE)

/-- Model of `_extract_all_affix_ids` (validator.py lines 41-55); the
Python set is modelled by a duplicate-free list. -/
def allAffixIds (s : RawSourceE) : List ℤ :=
  (s.phases.flatMap fun p =>
    p.2.affixes ++ p.2.strictness_affixes.flatMap (fun q => q.2)).dedup

/-- Model of `_has_phase_differentiation` (validator.py lines 58-76). -/
def hasPhaseDifferentiation (s : RawSourceE) : Bool :=
  if s.source_type = "filter" then
    s.phases.any fun p => ¬ p.2.strictness_affixes.isEmpty
  else
    2 ≤ (s.phases.filter fun p => ¬ p.2.affixes.isEmpty).length

/-- Model of `SourceScope` (`ingestion/base.py`). -/
inductive SourceScopeE where
  | specific
  | multi_mastery
  | multi_class
  | universal

/-- Model of `SourceIngester._determine_scope` (`ingestion/base.py`). -/
def determineScope (ms : List String) : SourceScopeE :=
  if ms.length = 1 then SourceScopeE.specific
  else if ms.length ≤ 3 then SourceScopeE.multi_mastery
  else if ms.length ≤ 9 then SourceScopeE.multi_class
  else SourceScopeE.universal

/-- Model of `SourceValidator._compute_specificity`. -/
def computeSpecificity (scope : SourceScopeE) (ms : List String) : ℚ :=
  match scope with
  | SourceScopeE.specific => 1
  | _ => if ms.isEmpty then 1/10 else min 1 (1 / (ms.length : ℚ))

/-- Model of `SourceValidator._compute_affix_coverage`. -/
def computeAffixCoverage (all_ids : List ℤ) (known : List ℤ) : ℚ :=
  if all_ids.isEmpty then 0
  else ((all_ids.filter fun i => known.contains i).length : ℚ) / (all_ids.length : ℚ)

/-- Model of `SourceValidator._compute_phase_coverage`. -/
def computePhaseCoverage (s : RawSourceE) : ℚ :=
  let n := (s.phases.filter fun p =>
    if ¬ p.2.affixes.isEmpty then true
    else if ¬ p.2.strictness_affixes.isEmpty then
      p.2.strictness_affixes.any fun q => ¬ q.2.isEmpty
    else false).length
  min 1 ((n : ℚ) / 3)

/-- Quality-weight lookup `self._quality_weights.get(dim, 0.0)`. -/
def qualityWeightOf (qw : List (String × ℚ)) (dim : String) : ℚ :=
  match qw.find? (fun p => p.1 == dim) with
  | some p => p.2
  | none => 0

/-- Model of `SourceValidator._compute_overall` (validator.py lines 206-226). -/
def computeOverall (qw : List (String × ℚ)) (sp ac pc re ca : ℚ) : ℚ :=
  let total := (qw.map fun p => p.2).sum
  let ws := sp * qualityWeightOf qw "specificity"
    + ac * qualityWeightOf qw "affix_coverage"
    + pc * qualityWeightOf qw "phase_coverage"
    + re * qualityWeightOf qw "recency"
    + ca * qualityWeightOf qw "consensus_alignment"
  if 0 < total then ws / total else 0

/-- Model of the `SourceQualityScore` dataclass (`domain/models.py`). -/
structure SourceQualityScoreE where
  source_id : String
  specificity : ℚ
  affix_coverage : ℚ
  phase_coverage : ℚ
  recency : ℚ
  consensus_alignment : ℚ
  overall : ℚ
  is_supplementary : Bool

/-- Model of `SourceValidator.validate` (validator.py lines 94-168).  The
four hard-rejection reason strings are abbreviated to fixed texts (the
source interpolates counts into them). -/
def validate (cfg : PipelineConfigE) (known : List ℤ) (qw : List (String × ℚ))
    (s : RawSourceE) (known_checksums : List String) :
    Bool × Option SourceQualityScoreE × String :=
  let all_ids := allAffixIds s
  if all_ids.length < cfg.min_unique_affixes then
    (false, none, "Too few unique affix IDs")
  else if ¬ (all_ids.filter fun i => ¬ known.contains i).isEmpty then
    (false, none, "Contains unknown affix ID(s)")
  else if ¬ hasPhaseDifferentiation s then
    (false, none, "No phase differentiation — cannot derive progression signals")
  else if known_checksums.contains s.checksum then
    (false, none, "Duplicate source detected (checksum match)")
  else
    let scope := determineScope s.covered_masteries
    let specificity := computeSpecificity scope s.covered_masteries
    let affix_coverage := computeAffixCoverage all_ids known
    let phase_coverage := computePhaseCoverage s
    let recency : ℚ := 1
    let consensus_alignment : ℚ := 1
    let overall := computeOverall qw specificity affix_coverage phase_coverage
      recency consensus_alignment
    (true, some
      { source_id := s.source_id
        specificity := roundQ4 specificity
        affix_coverage := roundQ4 affix_coverage
        phase_coverage := roundQ4 phase_coverage
        recency := roundQ4 recency
        consensus_alignment := roundQ4 consensus_alignment
        overall := roundQ4 overall
        is_supplementary := overall < cfg.supplementary_quality_threshold },
      "")

/-! ## Output-writing decision (`pipeline.py` lines 329-333)

`IngestionPipeline.run` ends with

    if not config.dry_run:
        if profiles or not config.force:
            self._writer.write(profiles, report)
    else:
        logger.info("Dry run — skipping output write")

`writerInvocations` counts how many times `KnowledgeBaseWriter.write` is
called by one `run`, as a function of the two CLI flags and whether the
run produced at least one profile. -/

def writerInvocations (dry_run force profiles_nonempty : Bool) : ℕ :=
  if dry_run = false then
    (if profiles_nonempty || !force then 1 else 0)
  else 0

/-! ## Inheritance resolver (`inheritance/resolver.py`, `inheritance/nodes.py`) -/

/-- Case-sensitive string-keyed dict lookup (`d.get(k)`). -/
def lookupStr {α : Type} (m : List (String × α)) (k : String) : Option α :=
  (m.find? fun p => p.1 == k).map fun p => p.2

/-- Model of a `damage_type_profiles` entry of game-constants.json. -/
structure DamageProfileE where
  primaryAffixIds : List ℤ
  synergyAffixIds : List ℤ

/-- The game-constants data consumed by `InheritanceResolver.resolve`.
`class_hierarchy` is modelled by its key set: `resolve` only tests
membership and hands the value to `ClassProfile`, which ignores it. -/
structure GameConstantsE where
  mastery_to_class : List (String × String)
  damage_type_profiles : List (String × DamageProfileE)
  class_hierarchy : List String
  threshold_affix_ids : List ℤ

/-- Model of `InheritanceNode.merge_into` (nodes.py lines 39-49): merge a
layer into the accumulated map, key by key, keeping the larger weight. -/
def mergeInto (layer : WMap) (weights : WMap) : WMap :=
  layer.foldl (fun r p => wset r p.1 (max (wget r p.1 0) p.2)) weights

/-- Model of `UniversalBaseline.resolve` (nodes.py lines 71-81). -/
def universalBaselineResolve (name_to_id : List (String × ℤ))
    (baseline_weights : List (String × ℚ)) : WMap :=
  baseline_weights.foldl
    (fun r p =>
      match lookupStr name_to_id p.1 with
      | some affix_id => wset r affix_id p.2
      | none => r)
    []

/-- Model of `DamageTypeProfile.resolve` (nodes.py lines 99-107):
primaries at weight 75, synergies at 55 without overwriting a primary. -/
def damageTypeResolve (prof : DamageProfileE) : WMap :=
  let r := prof.primaryAffixIds.foldl (fun r i => wset r i 75) []
  prof.synergyAffixIds.foldl
    (fun r i => if i ∈ wkeys r then r else wset r i 55) r

/-- Model of `MasteryProfile.resolve` (nodes.py lines 154-161): each
primary damage affix at 75 + 10. -/
def masteryResolve (primary_ids : List ℤ) : WMap :=
  primary_ids.foldl (fun r i => wset r i (75 + 10)) []

/-- Model of the layer-walk of `InheritanceResolver.resolve`
(resolver.py lines 117-148) up to and including layer 3 — the part
exercised when no consensus data exists.  Returns the merged weight map,
the `data_source_layer` string and the specificity score. -/
def inheritanceLayers (cfg : PipelineConfigE) (gc : GameConstantsE)
    (name_to_id : List (String × ℤ)) (mastery damage_type : String) :
    WMap × String × ℚ :=
  -- Layer 0: universal baseline
  let w0 := universalBaselineResolve name_to_id cfg.universal_baseline_weights
  let st0 : WMap × String × ℚ := (w0, "baseline", 0)
  -- Layer 1: damage-type profile
  let st1 : WMap × String × ℚ :=
    if damage_type ≠ "" then
      match lookupStr gc.damage_type_profiles damage_type with
      | some prof => (mergeInto (damageTypeResolve prof) st0.1, "damage_type", 1/5)
      | none => st0
    else st0
  -- Layer 2: class profile (contributes no weights)
  let base_class := (lookupStr gc.mastery_to_class mastery).getD ""
  let st2 : WMap × String × ℚ :=
    if base_class ≠ "" ∧ base_class ∈ gc.class_hierarchy then
      (mergeInto [] st1.1, "class", 2/5)
    else st1
  -- Layer 3: mastery profile
  let primary_ids :=
    if damage_type ≠ "" then
      match lookupStr gc.damage_type_profiles damage_type with
      | some prof => prof.primaryAffixIds
      | none => []
    else []
  let mastery_weights := masteryResolve primary_ids
  if ¬ mastery_weights.isEmpty then
    (mergeInto mastery_weights st2.1, "mastery", 7/10)
  else st2

/-- Model of `_weight_to_category` (resolver.py lines 45-57). -/
def weightToCategory (w : ℚ) : String :=
  if 75 ≤ w then "essential"
  else if 55 ≤ w then "strong"
  else if 35 ≤ w then "useful"
  else "filler"

/-- Model of the confidence-label block of `InheritanceResolver.resolve`
(resolver.py lines 226-234). -/
def confidenceStr (specificity_score : ℚ) (source_count : ℕ) : String :=
  if source_count = 0 then "low"
  else if 1 ≤ specificity_score ∧ 3 ≤ source_count then "high"
  else if 2 ≤ source_count then "medium"
  else "low"

/-- Model of the `AffixWeight` dataclass (`domain/models.py`) as produced
on the pure-inheritance path (all its fields are rationals there). -/
structure AffixWeightE where
  id : ℤ
  weight : ℚ
  category : String
  min_tier : ℤ
  consensus_spread : ℚ
  confidence : ℚ

/-- Insert an entry into a weight-descending list, after any entry of equal
weight (keeps insertion stable). -/
def insertDesc (p : ℤ × ℚ) : List (ℤ × ℚ) → List (ℤ × ℚ)
  | [] => [p]
  | q :: rest => if q.2 < p.2 then p :: q :: rest else q :: insertDesc p rest

/-- Stable descending sort by weight, as
`sorted(..., key=lambda x: x[1], reverse=True)`. -/
def sortByWeightDesc (l : List (ℤ × ℚ)) : List (ℤ × ℚ) :=
  l.foldr insertDesc []

/-- Model of the `BuildKnowledgeProfile` dataclass, with the three phase
lists as separate fields. -/
structure ProfileE where
  build_slug : String
  mastery : String
  damage_type : String
  specificity_score : ℚ
  source_count : ℕ
  confidence : String
  data_source_layer : String
  starter : List AffixWeightE
  endgame : List AffixWeightE
  aspirational : List AffixWeightE

/-- Model of `InheritanceResolver.resolve` (resolver.py lines 102-250)
specialized to `consensus_weights_by_phase=None` — the pure-inheritance
fallback path: layer 4 is skipped and the phase lists are built from the
merged, graph-propagated, threshold-filtered weight map. -/
def resolveInheritanceOnly (cfg : PipelineConfigE) (gc : GameConstantsE)
    (name_to_id : List (String × ℤ)) (g : List AffixEdge)
    (mastery damage_type build_slug : String) (source_count : ℕ) : ProfileE :=
  let st := inheritanceLayers cfg gc name_to_id mastery damage_type
  let base_class := (lookupStr gc.mastery_to_class mastery).getD ""
  let ctx : BuildContext :=
    [("mastery", CtxVal.str mastery), ("damage_type", CtxVal.str damage_type),
     ("base_class", CtxVal.str base_class)]
  let propagated := propagateWeights g st.1 ctx
    cfg.synergy_trigger_weight cfg.synergy_boost_per_strength
  let filtered := propagated.filter fun p => ¬ gc.threshold_affix_ids.contains p.1
  let sorted := sortByWeightDesc (filtered.filter fun p => 0 < p.2)
  let entries := sorted.map fun p =>
    AffixWeightE.mk p.1 (roundQ2 p.2) (weightToCategory p.2) 1 0 (1/2)
  { build_slug := build_slug
    mastery := mastery
    damage_type := damage_type
    specificity_score := roundQ4 st.2.2
    source_count := source_count
    confidence := confidenceStr st.2.2 source_count
    data_source_layer := st.2.1
    starter := entries
    endgame := entries
    aspirational := entries }

/-! ## The fallback call in `IngestionPipeline.process_build`

`process_build` (pipeline.py lines 233-240 and 267-274) calls
`self._inheritance_resolver.resolve(mastery=..., damage_types=...,
archetype=..., build_slug=..., consensus_weights_by_phase=...,
source_count=...)`, while `InheritanceResolver.resolve`
(resolver.py lines 102-109) accepts the parameters below.  Python raises
`TypeError` when a call supplies a keyword argument that is not a
parameter of the callee. -/

/-- The parameter names of `InheritanceResolver.resolve` (after `self`). -/
def resolveParams : List String :=
  ["mastery", "damage_type", "build_slug", "consensus_weights_by_phase",
   "source_count"]

/-- The keyword arguments used at the zero-accepted-sources fallback call
site (pipeline.py lines 233-240). -/
def fallbackCallKwargs : List String :=
  ["mastery", "damage_types", "archetype", "build_slug",
   "consensus_weights_by_phase", "source_count"]

/-- Python's check: the call raises `TypeError` iff some keyword argument
is not among the callee's parameters. -/
def callRaisesTypeError (params kwargs : List String) : Bool :=
  kwargs.any fun k => ¬ params.contains k

/-! ## Concrete instances used by the claims -/

/-- Empty static game data (no profiles, no thresholds). -/
def gcEmpty : GameConstantsE := ⟨[], [], [], []⟩

/-- A name index resolving the `added_health` baseline key to affix 1. -/
def ntiHealth : List (String × ℤ) := [("added_health", 1)]

/-- The five observations of the spec's outlier example: weights
[50, 52, 48, 51, 95], all from sources of quality 0.9. -/
def outlierExampleEntries : List ObsEntry :=
  [⟨50, 9/10, none, "strong", "s1"⟩, ⟨52, 9/10, none, "strong", "s2"⟩,
   ⟨48, 9/10, none, "strong", "s3"⟩, ⟨51, 9/10, none, "strong", "s4"⟩,
   ⟨95, 9/10, none, "essential", "s5"⟩]

/-- The two extracted weights of the weighted-average example:
(80, quality 1.0) and (40, quality 0.0) for affix 7, phase endgame. -/
def c4ews : List ExtractedWeightE :=
  [⟨7, "endgame", 80, none, "essential", "tier_translation", "a"⟩,
   ⟨7, "endgame", 40, none, "useful", "tier_translation", "b"⟩]

/-- Quality scores for `c4ews`. -/
def c4qs : List (String × ℚ) := [("a", 1), ("b", 0)]

/-- Two extracted weights for affix 4, one from a source absent from the
quality map ("mystery") and one from a known source of quality 1. -/
def c9ews : List ExtractedWeightE :=
  [⟨4, "starter", 80, none, "strong", "tier_translation", "mystery"⟩,
   ⟨4, "starter", 20, none, "filler", "tier_translation", "known"⟩]

/-- Quality scores for `c9ews`: only "known" is present. -/
def c9qs : List (String × ℚ) := [("known", 1)]

/-! ## Lemma development -/
theorem wget_nil (k : ℤ) (d : ℚ) : wget [] k d = d := rfl
theorem wget_cons (p : ℤ × ℚ) (m : WMap) (k : ℤ) (d : ℚ) :
    wget (p :: m) k d = if p.1 = k then p.2 else wget m k d := by
  by_cases h : p.1 = k <;> simp [wget, List.find?, h]
theorem wget_wset_self (m : WMap) (k : ℤ) (v : ℚ) (d : ℚ) :
    wget (wset m k v) k d = v := by
  induction m with
  | nil => simp [wset, wget_cons]
  | cons p rest ih =>
      by_cases h : p.1 = k
      · simp [wset, h, wget_cons]
      · simp [wset, h, wget_cons, ih]
theorem wget_wset_ne (m : WMap) (k j : ℤ) (v : ℚ) (d : ℚ) (h : k ≠ j) :
    wget (wset m k v) j d = wget m j d := by
  induction m with
  | nil => simp [wset, wget_cons, wget_nil, h]
  | cons p rest ih =>
      by_cases hp : p.1 = k
      · simp [wset, hp, wget_cons, h, hp ▸ h]
      · simp only [wset, hp, if_false, wget_cons, ih]
theorem wkeys_wset (m : WMap) (k : ℤ) (v : ℚ) :
    wkeys (wset m k v) = if k ∈ wkeys m then wkeys m else wkeys m ++ [k] := by
  induction m with
  | nil => simp [wset, wkeys]
  | cons p rest ih =>
      by_cases hp : p.1 = k
      · simp [wset, hp, wkeys]
      · have hne : ¬ k = p.1 := fun h => hp h.symm
        have hws : wset (p :: rest) k v = p :: wset rest k v := by simp [wset, hp]
        rw [hws, show wkeys (p :: wset rest k v) = p.1 :: wkeys (wset rest k v) from rfl,
          ih, show wkeys (p :: rest) = p.1 :: wkeys rest from rfl]
        by_cases hk : k ∈ wkeys rest
        · rw [if_pos hk, if_pos (by simp [hk] : k ∈ p.1 :: wkeys rest)]
        · rw [if_neg hk, if_neg (by simp [hk, hne] : ¬ k ∈ p.1 :: wkeys rest)]
          simp
theorem wkeys_wset_superset (m : WMap) (k j : ℤ) (v : ℚ)
    (h : j ∈ wkeys m) : j ∈ wkeys (wset m k v) := by
  rw [wkeys_wset]
  by_cases hk : k ∈ wkeys m <;> simp [hk, h]
theorem self_mem_wkeys_wset (m : WMap) (k : ℤ) (v : ℚ) :
    k ∈ wkeys (wset m k v) := by
  rw [wkeys_wset]
  by_cases hk : k ∈ wkeys m <;> simp [hk]
theorem wget_eq_default_of_not_mem (m : WMap) (k : ℤ) (d : ℚ)
    (h : k ∉ wkeys m) : wget m k d = d := by
  induction m with
  | nil => rfl
  | cons p rest ih =>
      simp only [wkeys, List.map_cons, List.mem_cons] at h
      push_neg at h
      have h1 : ¬ p.1 = k := fun hq => h.1 hq.symm
      rw [wget_cons, if_neg h1, ih (by simpa [wkeys] using h.2)]
theorem wget_mem_or_default (m : WMap) (k : ℤ) (d : ℚ) :
    (∃ p ∈ m, p.1 = k ∧ p.2 = wget m k d) ∨ wget m k d = d := by
  induction m with
  | nil => right; rfl
  | cons p rest ih =>
      by_cases hp : p.1 = k
      · left; exact ⟨p, by simp, hp, by simp [wget_cons, hp]⟩
      · rcases ih with ⟨q, hq, hk, hv⟩ | hD
        · left
          exact ⟨q, by simp [hq], hk, by simp [wget_cons, hp, hv]⟩
        · right; simp [wget_cons, hp, hD]
theorem applyBoosts_append (l₁ l₂ : List (ℤ × ℚ)) (m : WMap) (b : ℚ) :
    applyBoosts (l₁ ++ l₂) m b = applyBoosts l₂ (applyBoosts l₁ m b) b :=
  List.foldl_append ..
theorem synergyFold_eq_applyBoosts (g : List AffixEdge) (t b : ℚ) (m : WMap)
    (p : ℤ × ℚ) :
    synergyFold g t b m p = applyBoosts (synergyStepBoosts g t p) m b := by
  unfold synergyFold synergyStepBoosts
  by_cases h1 : p.2 ≤ t
  · simp [h1, applyBoosts]
  · by_cases h2 : hasNode g p.1 = false
    · simp [h1, h2, applyBoosts]
    · simp only [h1, h2, if_false, if_true]
      generalize outEdges g p.1 = es
      induction es generalizing m with
      | nil => simp [applyBoosts]
      | cons e rest ih =>
          by_cases he : e.etype = "SYNERGY"
          · simp [he, applyBoosts] at ih ⊢
            exact ih _
          · simp [he, applyBoosts] at ih ⊢
            exact ih _
theorem synergyPass_foldl_eq (g : List AffixEdge) (t b : ℚ) (ws : List (ℤ × ℚ)) :
    ∀ m : WMap, ws.foldl (synergyFold g t b) m
      = applyBoosts (ws.flatMap (synergyStepBoosts g t)) m b := by
  induction ws with
  | nil => intro m; simp [applyBoosts]
  | cons p rest ih =>
      intro m
      simp only [List.foldl_cons, List.flatMap_cons, applyBoosts_append]
      rw [synergyFold_eq_applyBoosts, ih]
theorem synergyPass_eq_applyBoosts (g : List AffixEdge) (w : WMap) (t b : ℚ) :
    synergyPass g w t b = applyBoosts (triggeredBoosts g w t) w b :=
  synergyPass_foldl_eq g t b w w
theorem wget_wset_cases (m : WMap) (k j : ℤ) (v : ℚ) (d : ℚ) :
    wget (wset m k v) j d = if k = j then v else wget m j d := by
  by_cases h : k = j
  · subst h; rw [if_pos rfl, wget_wset_self]
  · rw [if_neg h, wget_wset_ne _ _ _ _ _ h]
theorem wget_applyBoosts_not_target (l : List (ℤ × ℚ)) (m : WMap) (b : ℚ)
    (k : ℤ) (d : ℚ) (h : ∀ p ∈ l, p.1 ≠ k) :
    wget (applyBoosts l m b) k d = wget m k d := by
  induction l generalizing m with
  | nil => rfl
  | cons q rest ih =>
      have hq : q.1 ≠ k := h q (by simp)
      simp only [applyBoosts, List.foldl_cons]
      rw [show List.foldl _ _ rest = applyBoosts rest _ b from rfl,
        ih _ (fun p hp => h p (by simp [hp])), wget_wset_ne _ _ _ _ _ hq]
theorem wget_applyBoosts_single (l : List (ℤ × ℚ)) (m : WMap) (b : ℚ)
    (k : ℤ) (s : ℚ) (h : l.filter (fun p => p.1 = k) = [(k, s)]) :
    wget (applyBoosts l m b) k 0 = min 100 (wget m k 0 + s * b) := by
  induction l generalizing m with
  | nil => simp at h
  | cons q rest ih =>
      by_cases hq : q.1 = k
      · rw [List.filter_cons_of_pos (by simpa using hq)] at h
        have hqe : q = (k, s) := by
          have := List.head_eq_of_cons_eq h
          simpa using this
        have hrest : rest.filter (fun p => p.1 = k) = [] :=
          List.tail_eq_of_cons_eq h
        have hnone : ∀ p ∈ rest, p.1 ≠ k := by
          intro p hp
          by_contra hc
          have : p ∈ rest.filter (fun p => p.1 = k) :=
            List.mem_filter.2 ⟨hp, by simpa using hc⟩
          simp [hrest] at this
        simp only [applyBoosts, List.foldl_cons]
        rw [show List.foldl _ _ rest = applyBoosts rest _ b from rfl,
          wget_applyBoosts_not_target _ _ _ _ _ hnone, hqe, wget_wset_self]
      · rw [List.filter_cons_of_neg (by simpa using hq)] at h
        simp only [applyBoosts, List.foldl_cons]
        rw [show List.foldl _ _ rest = applyBoosts rest _ b from rfl, ih _ h,
          wget_wset_ne _ _ _ _ _ hq]
theorem applyBoosts_mono_bounds (l : List (ℤ × ℚ)) (b : ℚ) (hb : 0 ≤ b)
    (hs : ∀ p ∈ l, 0 ≤ p.2) :
    ∀ m : WMap, (∀ j, 0 ≤ wget m j 0) → (∀ j, wget m j 0 ≤ 100) →
      ∀ j, wget m j 0 ≤ wget (applyBoosts l m b) j 0 ∧
        0 ≤ wget (applyBoosts l m b) j 0 ∧ wget (applyBoosts l m b) j 0 ≤ 100 := by
  induction l with
  | nil => intro m h0 h100 j; exact ⟨le_refl _, h0 j, h100 j⟩
  | cons q rest ih =>
      intro m h0 h100 j
      have hq2 : 0 ≤ q.2 := hs q (by simp)
      have hrest : ∀ p ∈ rest, 0 ≤ p.2 := fun p hp => hs p (by simp [hp])
      set v : ℚ := min 100 (wget m q.1 0 + q.2 * b) with hv
      have hv0 : 0 ≤ v :=
        le_min (by norm_num) (add_nonneg (h0 q.1) (mul_nonneg hq2 hb))
      have hv100 : v ≤ 100 := min_le_left _ _
      have hstep0 : ∀ i, 0 ≤ wget (wset m q.1 v) i 0 := by
        intro i; rw [wget_wset_cases]
        by_cases h : q.1 = i
        · simp [h, hv0]
        · simp [h, h0 i]
      have hstep100 : ∀ i, wget (wset m q.1 v) i 0 ≤ 100 := by
        intro i; rw [wget_wset_cases]
        by_cases h : q.1 = i
        · simp [h, hv100]
        · simp [h, h100 i]
      have hmono : ∀ i, wget m i 0 ≤ wget (wset m q.1 v) i 0 := by
        intro i; rw [wget_wset_cases]
        by_cases h : q.1 = i
        · subst h
          simp only [if_pos rfl, hv]
          exact le_min (h100 q.1) (by nlinarith)
        · simp [h]
      have hrec := ih hrest (wset m q.1 v) hstep0 hstep100 j
      refine ⟨le_trans (hmono j) ?_, hrec.2.1, hrec.2.2⟩
      simpa [applyBoosts] using hrec.1
theorem wkeys_applyBoosts_superset (l : List (ℤ × ℚ)) (b : ℚ) :
    ∀ (m : WMap) (j : ℤ), j ∈ wkeys m → j ∈ wkeys (applyBoosts l m b) := by
  induction l with
  | nil => intro m j h; exact h
  | cons q rest ih =>
      intro m j h
      exact ih _ _ (wkeys_wset_superset _ _ _ _ h)
theorem target_mem_wkeys_applyBoosts (l : List (ℤ × ℚ)) (b : ℚ) (p : ℤ × ℚ)
    (hp : p ∈ l) : ∀ m : WMap, p.1 ∈ wkeys (applyBoosts l m b) := by
  induction l with
  | nil => simp at hp
  | cons q rest ih =>
      intro m
      rcases List.mem_cons.1 hp with h | h
      · subst h
        exact wkeys_applyBoosts_superset rest b _ _ (self_mem_wkeys_wset _ _ _)
      · exact ih h _
theorem prereqCheck_eq_or (g : List AffixEdge) (ctx : BuildContext)
    (m : WMap) (a : ℤ) :
    prereqCheck g ctx m a = m ∨ prereqCheck g ctx m a = wset m a 0 := by
  unfold prereqCheck
  split
  · left; rfl
  · split
    · right; rfl
    · left; rfl
theorem wkeys_prereqCheck_superset (g : List AffixEdge) (ctx : BuildContext)
    (m : WMap) (a j : ℤ) (h : j ∈ wkeys m) :
    j ∈ wkeys (prereqCheck g ctx m a) := by
  unfold prereqCheck
  by_cases hn : hasNode g a = false
  · simpa [hn] using h
  · simp only [hn, if_false]
    cases (outEdges g a).find?
        (fun e => e.etype == "PREREQUISITE" && !(evalCondition e.condition ctx)) with
    | none => simpa using h
    | some e => simpa using wkeys_wset_superset _ _ _ _ h
theorem wkeys_prereqFold_superset (g : List AffixEdge) (ctx : BuildContext)
    (ks : List ℤ) : ∀ (m : WMap) (j : ℤ), j ∈ wkeys m →
      j ∈ wkeys (ks.foldl (prereqCheck g ctx) m) := by
  induction ks with
  | nil => intro m j h; exact h
  | cons a rest ih =>
      intro m j h
      exact ih _ _ (wkeys_prereqCheck_superset g ctx m a j h)
theorem prereq_zero_preserved (g : List AffixEdge) (ctx : BuildContext)
    (ks : List ℤ) : ∀ (m : WMap) (k : ℤ), wget m k 0 = 0 →
      wget (ks.foldl (prereqCheck g ctx) m) k 0 = 0 := by
  induction ks with
  | nil => intro m k h; exact h
  | cons a rest ih =>
      intro m k h
      refine ih _ _ ?_
      rcases prereqCheck_eq_or g ctx m a with hc | hc
      · rw [hc]; exact h
      · rw [hc, wget_wset_cases]
        by_cases hak : a = k <;> simp [hak, h]
theorem hasNode_of_outEdge (g : List AffixEdge) (k : ℤ) (e : AffixEdge)
    (he : e ∈ outEdges g k) : hasNode g k = true := by
  rcases List.mem_filter.1 he with ⟨hg, hk⟩
  refine List.any_eq_true.2 ⟨e, hg, ?_⟩
  simp only [Bool.or_eq_true]
  left
  simpa using hk
theorem prereqCheck_zeroes (g : List AffixEdge) (ctx : BuildContext)
    (m : WMap) (k : ℤ) (e : AffixEdge) (he : e ∈ outEdges g k)
    (het : e.etype = "PREREQUISITE") (hev : evalCondition e.condition ctx = false) :
    wget (prereqCheck g ctx m k) k 0 = 0 := by
  unfold prereqCheck
  rw [if_neg (by simp [hasNode_of_outEdge g k e he])]
  have hex : ∃ x ∈ outEdges g k,
      (x.etype == "PREREQUISITE" && !(evalCondition x.condition ctx)) = true :=
    ⟨e, he, by simp [het, hev]⟩
  have hsome : ((outEdges g k).find?
      (fun e => e.etype == "PREREQUISITE" && !(evalCondition e.condition ctx))).isSome := by
    rw [List.find?_isSome]
    exact hex
  rcases Option.isSome_iff_exists.1 hsome with ⟨x, hx⟩
  rw [hx, wget_wset_self]
theorem prereqFold_zeroes (g : List AffixEdge) (ctx : BuildContext)
    (ks : List ℤ) (k : ℤ) (hk : k ∈ ks) (e : AffixEdge) (he : e ∈ outEdges g k)
    (het : e.etype = "PREREQUISITE") (hev : evalCondition e.condition ctx = false) :
    ∀ m : WMap, wget (ks.foldl (prereqCheck g ctx) m) k 0 = 0 := by
  induction ks with
  | nil => simp at hk
  | cons a rest ih =>
      intro m
      rcases List.mem_cons.1 hk with h | h
      · subst h
        exact prereq_zero_preserved g ctx rest _ k
          (prereqCheck_zeroes g ctx m k e he het hev)
      · exact ih h _

theorem inheritanceLayers_layer_mem (cfg : PipelineConfigE) (gc : GameConstantsE)
    (nti : List (String × ℤ)) (m dt : String) :
    (inheritanceLayers cfg gc nti m dt).2.1 ∈
      ["baseline", "damage_type", "class", "mastery"] := by
  unfold inheritanceLayers
  simp only []
  repeat' split
  all_goals simp

/-! ## Claim theorems -/

/-- C1: the claim states that a non-dry run with zero profiles and the
force flag unset does not invoke the writer, and that a non-dry run with
at least one profile invokes it exactly once.  The second half holds, but
`pipeline.py` line 330 reads `if profiles or not config.force:`, so at the
failing input (dry_run = false, force = false, zero profiles) the writer
IS invoked — once, with an empty profile dict. -/
theorem claim1_write_decision :
    writerInvocations false false false = 1 ∧
    (∀ force : Bool, writerInvocations false force true = 1) := by
  refine ⟨rfl, ?_⟩
  intro force
  cases force <;> rfl

/-- C3: the pure-inheritance fallback.  First conjunct: the fallback call
in `process_build` passes the keyword arguments `damage_types` and
`archetype`, which `InheritanceResolver.resolve` does not accept, so the
call raises `TypeError`.  Remaining conjuncts: `resolve` itself, called
with `source_count = 0` and no consensus data as its signature intends,
always yields confidence "low", a data-source layer no deeper than
"mastery", and identical phase lists; on a concrete catalog the profile
is also non-empty. -/
theorem claim3_inheritance_fallback :
    callRaisesTypeError resolveParams fallbackCallKwargs = true ∧
    (∀ (cfg : PipelineConfigE) (gc : GameConstantsE) (nti : List (String × ℤ))
        (g : List AffixEdge) (m dt bs : String),
      (resolveInheritanceOnly cfg gc nti g m dt bs 0).confidence = "low" ∧
      (resolveInheritanceOnly cfg gc nti g m dt bs 0).data_source_layer ∈
        ["baseline", "damage_type", "class", "mastery"] ∧
      (resolveInheritanceOnly cfg gc nti g m dt bs 0).starter =
        (resolveInheritanceOnly cfg gc nti g m dt bs 0).endgame ∧
      (resolveInheritanceOnly cfg gc nti g m dt bs 0).endgame =
        (resolveInheritanceOnly cfg gc nti g m dt bs 0).aspirational) ∧
    (resolveInheritanceOnly cfgDefault gcEmpty ntiHealth [] "shaman" "" "slug" 0).starter
      = [⟨1, 70, "strong", 1, 0, 1/2⟩] := by
  refine ⟨by decide, ?_, ?_⟩
  · intro cfg gc nti g m dt bs
    refine ⟨?_, ?_, rfl, rfl⟩
    · simp [resolveInheritanceOnly, confidenceStr]
    · show (inheritanceLayers cfg gc nti m dt).2.1 ∈ _
      exact inheritanceLayers_layer_mem cfg gc nti m dt
  · have h0 : universalBaselineResolve ntiHealth cfgDefault.universal_baseline_weights
        = [(1, 70)] := by
      simp [universalBaselineResolve, lookupStr, cfgDefault, ntiHealth, wset]
    have h1 : inheritanceLayers cfgDefault gcEmpty ntiHealth "shaman" ""
        = ([(1, 70)], "baseline", 0) := by
      simp [inheritanceLayers, h0, gcEmpty, lookupStr, masteryResolve]
    have h2 : propagateWeights [] [(1, 70)]
        [("mastery", CtxVal.str "shaman"), ("damage_type", CtxVal.str ""),
          ("base_class", CtxVal.str "")]
        cfgDefault.synergy_trigger_weight cfgDefault.synergy_boost_per_strength
        = [(1, 70)] := by
      simp [propagateWeights, synergyPass, synergyFold, prereqPass, prereqCheck,
        hasNode, wkeys, cfgDefault]
    have h3 : (lookupStr gcEmpty.mastery_to_class "shaman").getD "" = "" := by
      simp [gcEmpty, lookupStr]
    have h4 : gcEmpty.threshold_affix_ids = ([] : List ℤ) := rfl
    simp only [resolveInheritanceOnly, h1, h3, h2, h4]
    norm_num [sortByWeightDesc, insertDesc, weightToCategory, roundQ2]

/-- C7: a source referencing at least one affix id absent from the
resolver's known-id set is rejected by `SourceValidator.validate` with a
null quality score, regardless of how many known ids it also references. -/
theorem claim7_unknown_affix_rejection (cfg : PipelineConfigE) (known : List ℤ)
    (qw : List (String × ℚ)) (s : RawSourceE) (chks : List String)
    (h : ∃ i ∈ allAffixIds s, i ∉ known) :
    (validate cfg known qw s chks).1 = false ∧
    (validate cfg known qw s chks).2.1 = none := by
  rcases h with ⟨i, hi, hik⟩
  have hmem : i ∈ (allAffixIds s).filter fun i => ¬ known.contains i :=
    List.mem_filter.2 ⟨hi, by simpa using hik⟩
  have hne : ¬ ((allAffixIds s).filter fun i => ¬ known.contains i).isEmpty := by
    intro hc
    rw [List.isEmpty_iff] at hc
    rw [hc] at hmem
    exact List.not_mem_nil i hmem
  simp only [validate]
  by_cases h1 : (allAffixIds s).length < cfg.min_unique_affixes
  · rw [if_pos h1]
    exact ⟨rfl, rfl⟩
  · rw [if_neg h1, if_pos hne]
    exact ⟨rfl, rfl⟩

/-- C7 witness: a planner source referencing the unknown affix id 999
alongside known ids is rejected with a null score. -/
theorem claim7_unknown_affix_rejection_witness :
    (∃ i ∈ allAffixIds ⟨"s1", "planner", "c1", ["shaman"],
        [("starter", ⟨[1, 2, 3], []⟩), ("endgame", ⟨[1, 2, 999], []⟩)]⟩,
      i ∉ [(1 : ℤ), 2, 3]) ∧
    (validate cfgDefault [1, 2, 3] cfgDefault.quality_weights
      ⟨"s1", "planner", "c1", ["shaman"],
        [("starter", ⟨[1, 2, 3], []⟩), ("endgame", ⟨[1, 2, 999], []⟩)]⟩ []).1 = false ∧
    (validate cfgDefault [1, 2, 3] cfgDefault.quality_weights
      ⟨"s1", "planner", "c1", ["shaman"],
        [("starter", ⟨[1, 2, 3], []⟩), ("endgame", ⟨[1, 2, 999], []⟩)]⟩ []).2.1 = none := by
  refine ⟨by decide, ?_⟩
  exact claim7_unknown_affix_rejection cfgDefault [1, 2, 3]
    cfgDefault.quality_weights _ [] (by decide)

/-- C8: the confidence label of `InheritanceResolver.resolve` is "low"
whenever the source count is 0; "high" exactly when the specificity score
reached the fully-specific value (1.0) and the source count is at least
3; "medium" when the source count is at least 2 and the high conditions
fail; and "low" otherwise — in particular a single accepted source gives
"low" even at specificity 1.0. -/
theorem claim8_confidence_label :
    (∀ (s : ℚ) (n : ℕ), confidenceStr s n = "high" ↔ (1 ≤ s ∧ 3 ≤ n)) ∧
    (∀ s : ℚ, confidenceStr s 0 = "low") ∧
    (∀ (s : ℚ) (n : ℕ), 2 ≤ n → ¬ (1 ≤ s ∧ 3 ≤ n) → confidenceStr s n = "medium") ∧
    (∀ s : ℚ, confidenceStr s 1 = "low") ∧
    confidenceStr 1 1 = "low" := by
  have hstr1 : ("low" : String) ≠ "high" := by decide
  have hstr2 : ("medium" : String) ≠ "high" := by decide
  refine ⟨?_, ?_, ?_, ?_, ?_⟩
  · intro s n
    constructor
    · intro h
      by_contra hc
      by_cases h0 : n = 0
      · rw [confidenceStr, if_pos h0] at h
        exact hstr1 h
      · rw [confidenceStr, if_neg h0, if_neg hc] at h
        by_cases h2 : 2 ≤ n
        · rw [if_pos h2] at h
          exact hstr2 h
        · rw [if_neg h2] at h
          exact hstr1 h
    · rintro ⟨hs, hn⟩
      have h0 : n ≠ 0 := by omega
      rw [confidenceStr, if_neg h0, if_pos ⟨hs, hn⟩]
  · intro s
    rw [confidenceStr, if_pos rfl]
  · intro s n h2 hc
    have h0 : n ≠ 0 := by omega
    rw [confidenceStr, if_neg h0, if_neg hc, if_pos h2]
  · intro s
    rw [confidenceStr]
    norm_num
  · rw [confidenceStr]
    norm_num

theorem triggeredBoosts_strength_nonneg (g : List AffixEdge) (w : WMap) (t : ℚ)
    (hg : ∀ e ∈ g, e.etype = "SYNERGY" → 0 ≤ e.strength) :
    ∀ p ∈ triggeredBoosts g w t, 0 ≤ p.2 := by
  intro p hp
  unfold triggeredBoosts at hp
  rw [List.mem_flatMap] at hp
  rcases hp with ⟨q, _, hpq⟩
  unfold synergyStepBoosts at hpq
  split at hpq
  · simp at hpq
  · split at hpq
    · simp at hpq
    · rw [List.mem_map] at hpq
      rcases hpq with ⟨e, he, rfl⟩
      have h1 := List.mem_filter.1 he
      have h2 := List.mem_filter.1 h1.1
      exact hg e h2.1 (by simpa using h1.2)

theorem wget_bounds_of_entries (w : WMap) (hw : ∀ p ∈ w, 0 ≤ p.2 ∧ p.2 ≤ 100)
    (j : ℤ) : 0 ≤ wget w j 0 ∧ wget w j 0 ≤ 100 := by
  rcases wget_mem_or_default w j 0 with ⟨p, hp, _, hv⟩ | hD
  · rw [← hv]
    exact hw p hp
  · rw [hD]
    norm_num

/-- C5: in the SYNERGY pass, when exactly one triggered boost (source
weight strictly above the trigger, outgoing SYNERGY edge) targets affix
B, B's output weight is its input weight plus `strength * boost`, clamped
at 100; the pass never lowers any weight (nonnegative strengths and boost,
weights within [0, 100]); and in the concrete example, affix 1 at weight
70 with a strength-1.0 SYNERGY edge to affix 2 raises 2's weight by
exactly 15 under the default trigger 60 and boost 15. -/
theorem claim5_synergy_pass :
    (∀ (g : List AffixEdge) (w : WMap) (t b : ℚ) (B : ℤ) (s : ℚ),
       (triggeredBoosts g w t).filter (fun p => p.1 = B) = [(B, s)] →
       wget (synergyPass g w t b) B 0 = min 100 (wget w B 0 + s * b)) ∧
    (∀ (g : List AffixEdge) (w : WMap) (t b : ℚ), 0 ≤ b →
       (∀ e ∈ g, e.etype = "SYNERGY" → 0 ≤ e.strength) →
       (∀ p ∈ w, 0 ≤ p.2 ∧ p.2 ≤ 100) →
       ∀ k, wget w k 0 ≤ wget (synergyPass g w t b) k 0) ∧
    wget (synergyPass [⟨1, 2, "SYNERGY", 1, none⟩] [(1, 70), (2, 50)]
      cfgDefault.synergy_trigger_weight cfgDefault.synergy_boost_per_strength) 2 0
      = 50 + 15 := by
  refine ⟨?_, ?_, ?_⟩
  · intro g w t b B s h
    rw [synergyPass_eq_applyBoosts]
    exact wget_applyBoosts_single _ _ _ _ _ h
  · intro g w t b hb hg hw k
    rw [synergyPass_eq_applyBoosts]
    exact (applyBoosts_mono_bounds _ b hb (triggeredBoosts_strength_nonneg g w t hg) w
      (fun j => (wget_bounds_of_entries w hw j).1)
      (fun j => (wget_bounds_of_entries w hw j).2) k).1
  · norm_num [synergyPass, synergyFold, outEdges, hasNode, wget, wset, cfgDefault,
      List.find?]

/-- C5 witness: both universal parts applied to the concrete strength-1.0
edge from affix 1 (weight 70) to affix 2 (weight 50) with trigger 60 and
boost 15. -/
theorem claim5_synergy_pass_witness :
    ((triggeredBoosts [⟨1, 2, "SYNERGY", 1, none⟩] [(1, 70), (2, 50)] 60).filter
        (fun p => p.1 = 2) = [(2, 1)]) ∧
    wget (synergyPass [⟨1, 2, "SYNERGY", 1, none⟩] [(1, 70), (2, 50)] 60 15) 2 0
      = min 100 (wget [(1, 70), (2, 50)] 2 0 + 1 * 15) ∧
    wget [(1, 70), (2, 50)] 2 0
      ≤ wget (synergyPass [⟨1, 2, "SYNERGY", 1, none⟩] [(1, 70), (2, 50)] 60 15) 2 0 := by
  have h1 : (triggeredBoosts [⟨1, 2, "SYNERGY", 1, none⟩] [(1, 70), (2, 50)] 60).filter
      (fun p => p.1 = 2) = [(2, 1)] := by
    norm_num [triggeredBoosts, synergyStepBoosts, outEdges, hasNode, List.flatMap]
  refine ⟨h1, claim5_synergy_pass.1 _ _ _ _ _ _ h1,
    claim5_synergy_pass.2.1 _ _ _ 15 (by norm_num) ?_ ?_ 2⟩
  · intro e he _
    rcases List.mem_singleton.1 he with rfl
    norm_num
  · intro p hp
    rcases List.mem_cons.1 hp with rfl | hp
    · norm_num
    · rcases List.mem_singleton.1 hp with rfl
      norm_num

/-- C6: in the PREREQUISITE pass, an affix present in the post-synergy map
that has an outgoing PREREQUISITE edge whose condition evaluates false
against the build context ends at weight 0; a condition string containing
none of `&&`, `||`, `==` is treated as satisfied; and in the concrete
example an affix with condition `attack_type == melee` is zeroed when the
context has attack_type "bow". -/
theorem claim6_prerequisite_zeroing :
    (∀ (g : List AffixEdge) (w : WMap) (ctx : BuildContext) (t b : ℚ) (k : ℤ),
       k ∈ wkeys (synergyPass g w t b) →
       (∃ e ∈ outEdges g k, e.etype = "PREREQUISITE" ∧
          evalCondition e.condition ctx = false) →
       wget (propagateWeights g w ctx t b) k 0 = 0) ∧
    (∀ (s : String) (ctx : BuildContext),
       pyContains (pyStrip s) "&&" = false → pyContains (pyStrip s) "||" = false →
       pyContains (pyStrip s) "==" = false → evalCondition (some s) ctx = true) ∧
    evalCondition (some "attack_type == melee") [("attack_type", CtxVal.str "bow")]
      = false ∧
    wget (propagateWeights [⟨3, 99, "PREREQUISITE", 0, some "attack_type == melee"⟩]
      [(3, 80)] [("attack_type", CtxVal.str "bow")]
      cfgDefault.synergy_trigger_weight cfgDefault.synergy_boost_per_strength) 3 0
      = 0 := by
  refine ⟨?_, ?_, by decide, ?_⟩
  · intro g w ctx t b k hk he
    rcases he with ⟨e, he, het, hev⟩
    unfold propagateWeights prereqPass
    exact prereqFold_zeroes g ctx _ k hk e he het hev _
  · intro s ctx h1 h2 h3
    simp [evalCondition, evalCondFuel, h1, h2, h3]
  · norm_num [propagateWeights, prereqPass, prereqCheck, synergyPass, synergyFold,
      outEdges, hasNode, wkeys, wget, wset, List.find?, cfgDefault]

/-- C6 witness: the zeroing part applied to the concrete PREREQUISITE edge
with condition `attack_type == melee` under context attack_type = "bow",
and the unparseable-condition part applied to the string "gibberish". -/
theorem claim6_prerequisite_zeroing_witness :
    (3 : ℤ) ∈ wkeys (synergyPass
      [⟨3, 99, "PREREQUISITE", 0, some "attack_type == melee"⟩] [(3, 80)] 60 15) ∧
    wget (propagateWeights [⟨3, 99, "PREREQUISITE", 0, some "attack_type == melee"⟩]
      [(3, 80)] [("attack_type", CtxVal.str "bow")] 60 15) 3 0 = 0 ∧
    evalCondition (some "gibberish") [("attack_type", CtxVal.str "bow")] = true := by
  have hsp : synergyPass [⟨3, 99, "PREREQUISITE", 0, some "attack_type == melee"⟩]
      [(3, 80)] 60 15 = [(3, 80)] := by
    norm_num [synergyPass, synergyFold, outEdges, hasNode, wset, wget, List.find?]
    decide
  have hk : (3 : ℤ) ∈ wkeys (synergyPass
      [⟨3, 99, "PREREQUISITE", 0, some "attack_type == melee"⟩] [(3, 80)] 60 15) := by
    rw [hsp]
    decide
  refine ⟨hk, ?_, ?_⟩
  · refine claim6_prerequisite_zeroing.1 _ _ _ _ _ 3 hk ?_
    refine ⟨⟨3, 99, "PREREQUISITE", 0, some "attack_type == melee"⟩, ?_, rfl, by decide⟩
    simp [outEdges]
  · exact claim6_prerequisite_zeroing.2.1 "gibberish" _ (by decide) (by decide) (by decide)

/-- C10: graph propagation returns a map whose key set contains every
input key, and the SYNERGY pass may introduce an edge-target affix absent
from the input, starting it from weight 0 before the boost (the embedding
is a pure function of the input map, which it leaves untouched). -/
theorem claim10_propagate_keys :
    (∀ (g : List AffixEdge) (w : WMap) (ctx : BuildContext) (t b : ℚ),
       ∀ k ∈ wkeys w, k ∈ wkeys (propagateWeights g w ctx t b)) ∧
    (∀ (g : List AffixEdge) (w : WMap) (t b : ℚ) (B : ℤ) (s : ℚ), B ∉ wkeys w →
       (triggeredBoosts g w t).filter (fun p => p.1 = B) = [(B, s)] →
       B ∈ wkeys (synergyPass g w t b) ∧
       wget (synergyPass g w t b) B 0 = min 100 (0 + s * b)) := by
  constructor
  · intro g w ctx t b k hk
    unfold propagateWeights prereqPass
    apply wkeys_prereqFold_superset
    rw [synergyPass_eq_applyBoosts]
    exact wkeys_applyBoosts_superset _ _ _ _ hk
  · intro g w t b B s hB h
    constructor
    · rw [synergyPass_eq_applyBoosts]
      have hmem : (B, s) ∈ triggeredBoosts g w t := by
        have hf : (B, s) ∈ (triggeredBoosts g w t).filter (fun p => p.1 = B) := by
          rw [h]
          simp
        exact List.mem_of_mem_filter hf
      exact target_mem_wkeys_applyBoosts _ _ _ hmem _
    · rw [synergyPass_eq_applyBoosts, wget_applyBoosts_single _ _ _ _ _ h,
        wget_eq_default_of_not_mem _ _ _ hB]

/-- C10 witness: both parts applied to a strength-1.0 SYNERGY edge from
affix 1 (weight 70) to the absent affix 5. -/
theorem claim10_propagate_keys_witness :
    ((1 : ℤ) ∈ wkeys [((1 : ℤ), (70 : ℚ))] ∧
      (1 : ℤ) ∈ wkeys (propagateWeights [⟨1, 5, "SYNERGY", 1, none⟩] [(1, 70)] [] 60 15)) ∧
    ((5 : ℤ) ∉ wkeys [((1 : ℤ), (70 : ℚ))] ∧
      (5 : ℤ) ∈ wkeys (synergyPass [⟨1, 5, "SYNERGY", 1, none⟩] [(1, 70)] 60 15) ∧
      wget (synergyPass [⟨1, 5, "SYNERGY", 1, none⟩] [(1, 70)] 60 15) 5 0
        = min 100 (0 + 1 * 15)) := by
  have h1 : (triggeredBoosts [⟨1, 5, "SYNERGY", 1, none⟩] [(1, 70)] 60).filter
      (fun p => p.1 = 5) = [(5, 1)] := by
    norm_num [triggeredBoosts, synergyStepBoosts, outEdges, hasNode, List.flatMap]
  have h5 : (5 : ℤ) ∉ wkeys [((1 : ℤ), (70 : ℚ))] := by decide
  refine ⟨⟨by decide, claim10_propagate_keys.1 _ _ [] 60 15 1 (by decide)⟩, h5, ?_⟩
  exact claim10_propagate_keys.2 _ _ 60 15 5 1 h5 h1

theorem lookupQuality_eq_half (qs : List (String × ℚ)) (sid : String)
    (h : ∀ p ∈ qs, p.1 ≠ sid) : lookupQuality qs sid = 1/2 := by
  unfold lookupQuality
  rw [List.find?_eq_none.2 (fun p hp => by simpa using h p hp)]

/-- C2 (amended): for every observation group of at least three, the
outlier loop examines only the first observation — Python's
`zip(raw_weights, raw_qualities, *zip(*entries[0:1]))` truncates the
iteration to a single item — so the surviving set is the first
observation alone when it is kept (with the outlier-retained flag set
exactly when it is beyond the threshold), and all raw observations when
the first observation is a dropped low-quality outlier; in particular for
[50, 52, 48, 51, 95] all at quality 0.9 the surviving set is [50], the
merged weight 50, and the consensus spread 0. -/
theorem claim2_outlier_loop_truncated :
    (∀ (cfg : PipelineConfigE) (e0 : ObsEntry) (rest : List ObsEntry),
       3 ≤ (e0 :: rest).length →
       outlierFilter cfg (e0 :: rest) =
         if (e0.weight - listMean ((e0 :: rest).map fun e => e.weight)) ^ 2 >
             cfg.outlier_std_dev_threshold ^ 2 *
               sampleVariance ((e0 :: rest).map fun e => e.weight) then
           (if e0.quality < cfg.supplementary_quality_threshold then
             ((e0 :: rest).map fun e => e.weight,
              (e0 :: rest).map fun e => e.quality, false)
           else ([e0.weight], [e0.quality], true))
         else ([e0.weight], [e0.quality], false)) ∧
    survivingWeights cfgDefault outlierExampleEntries = [50] ∧
    consensusWeightVal cfgDefault outlierExampleEntries none 1 = 50 ∧
    consensusSpreadVal cfgDefault outlierExampleEntries = 0 := by
  refine ⟨?_, ?_, ?_, ?_⟩
  · intro cfg e0 rest h3
    simp only [outlierFilter, outlierLoopItems, List.map_cons, List.zip_cons_cons,
      List.take_succ_cons, List.take_zero, List.foldl_cons, List.foldl_nil,
      outlierStep, List.nil_append]
    rw [if_pos (show 3 ≤ (e0.weight :: List.map (fun e => e.weight) rest).length by
      simpa using h3)]
    split
    · split
      · simp
      · simp
    · simp
  · norm_num [survivingWeights, outlierFilter, outlierLoopItems, outlierStep,
      listMean, sampleVariance, outlierExampleEntries, cfgDefault]
  · norm_num [consensusWeightVal, survivingWeights, survivingQualities, outlierFilter,
      outlierLoopItems, outlierStep, listMean, sampleVariance, weightedAverage,
      outlierExampleEntries, cfgDefault]
  · norm_num [consensusSpreadVal, survivingWeights, outlierKeptFlag, outlierFilter,
      outlierLoopItems, outlierStep, listMean, sampleVariance, outlierExampleEntries,
      cfgDefault]

/-- C2 witness: the truncation statement applied to the concrete
five-observation group; its first observation (50) is within the
threshold, so the surviving set is [50] with the flag down. -/
theorem claim2_outlier_loop_truncated_witness :
    3 ≤ outlierExampleEntries.length ∧
    outlierFilter cfgDefault outlierExampleEntries = ([50], [9/10], false) := by
  constructor
  · norm_num [outlierExampleEntries]
  · have h := claim2_outlier_loop_truncated.1 cfgDefault
      ⟨50, 9/10, none, "strong", "s1"⟩
      [⟨52, 9/10, none, "strong", "s2"⟩, ⟨48, 9/10, none, "strong", "s3"⟩,
       ⟨51, 9/10, none, "strong", "s4"⟩, ⟨95, 9/10, none, "essential", "s5"⟩]
      (by norm_num)
    show outlierFilter cfgDefault
      (⟨50, 9/10, none, "strong", "s1"⟩ ::
        [⟨52, 9/10, none, "strong", "s2"⟩, ⟨48, 9/10, none, "strong", "s3"⟩,
         ⟨51, 9/10, none, "strong", "s4"⟩, ⟨95, 9/10, none, "essential", "s5"⟩]) = _
    rw [h, if_neg (by norm_num [listMean, sampleVariance, cfgDefault])]

/-- C2 counterexample: at the claim's own example — five observations
[50, 52, 48, 51, 95] all at quality 0.9 — the code does NOT retain the 95
in the surviving set, and the resulting consensus spread is 0, whereas
the claimed value (normalized standard deviation plus 0.1, capped at 1)
is at least 0.1 for every nonnegative standard deviation. -/
theorem claim2_counterexample :
    (95 : ℚ) ∉ survivingWeights cfgDefault outlierExampleEntries ∧
    consensusSpreadVal cfgDefault outlierExampleEntries = 0 ∧
    ∀ x : ℝ, 0 ≤ x → min 1 (min 1 (x / 50) + 1/10) ≠ 0 := by
  refine ⟨?_, ?_, ?_⟩
  · have hs : survivingWeights cfgDefault outlierExampleEntries = [50] := by
      norm_num [survivingWeights, outlierFilter, outlierLoopItems, outlierStep,
        listMean, sampleVariance, outlierExampleEntries, cfgDefault]
    rw [hs]
    norm_num
  · norm_num [consensusSpreadVal, survivingWeights, outlierKeptFlag, outlierFilter,
      outlierLoopItems, outlierStep, listMean, sampleVariance, outlierExampleEntries,
      cfgDefault]
  · intro x hx h
    have h1 : (0 : ℝ) ≤ min 1 (x / 50) :=
      le_min (by norm_num) (by positivity)
    have h2 : (0 : ℝ) < min 1 (min 1 (x / 50) + 1/10) :=
      lt_min (by norm_num) (by linarith)
    rw [h] at h2
    exact lt_irrefl 0 h2

/-- C4: the consensus weight is the quality-weighted mean
Σ(weight·quality)/Σ(quality) of the surviving observations, falling back
to the arithmetic mean when the total quality is 0; for the observations
[(80, quality 1.0), (40, quality 0.0)] the merged weight is exactly 80. -/
theorem claim4_weighted_average :
    (∀ ws qs : List ℚ, qs.sum ≠ 0 →
       weightedAverage ws qs = ((ws.zip qs).map fun p => p.1 * p.2).sum / qs.sum) ∧
    (∀ ws qs : List ℚ, qs.sum = 0 → ws ≠ [] →
       weightedAverage ws qs = ws.sum / (ws.length : ℚ)) ∧
    (∀ (cfg : PipelineConfigE) (entries : List ObsEntry) (a : ℤ),
       consensusWeightVal cfg entries none a =
         weightedAverage (survivingWeights cfg entries) (survivingQualities cfg entries)) ∧
    (mergeE cfgDefault c4ews c4qs none).map (fun r => r.weight) = [80] := by
  refine ⟨?_, ?_, ?_, ?_⟩
  · intro ws qs h
    simp [weightedAverage, h]
  · intro ws qs h hne
    simp [weightedAverage, h, hne]
  · intro cfg entries a
    rfl
  · have hkeys : groupKeysOf c4ews = [(7, "endgame")] := by
      simp [groupKeysOf, c4ews]
    have hentries : groupEntriesFor c4ews c4qs (7, "endgame") =
        [⟨80, 1, none, "essential", "a"⟩, ⟨40, 0, none, "useful", "b"⟩] := by
      simp [groupEntriesFor, c4ews, c4qs, lookupQuality]
    simp only [mergeE, hkeys, List.map_cons, List.map_nil, hentries, mkConsensusWeight]
    norm_num [consensusWeightVal, survivingWeights, survivingQualities, outlierFilter,
      outlierLoopItems, outlierStep, weightedAverage, roundQ2]

/-- C4 witness: the weighted-mean branch applied at nonzero total quality
([80, 40] against [1, 0]) and the arithmetic-mean fallback applied at
zero total quality ([30, 50] against [0, 0]). -/
theorem claim4_weighted_average_witness :
    (([1, 0] : List ℚ).sum ≠ 0 ∧
      weightedAverage [80, 40] [1, 0] =
        ((([80, 40] : List ℚ).zip [1, 0]).map fun p => p.1 * p.2).sum /
          ([1, 0] : List ℚ).sum) ∧
    (([0, 0] : List ℚ).sum = 0 ∧ ([30, 50] : List ℚ) ≠ [] ∧
      weightedAverage [30, 50] [0, 0] =
        ([30, 50] : List ℚ).sum / ((([30, 50] : List ℚ).length : ℚ))) := by
  refine ⟨⟨by norm_num, claim4_weighted_average.1 _ _ (by norm_num)⟩,
    by norm_num, by simp,
    claim4_weighted_average.2.1 _ _ (by norm_num) (by simp)⟩

/-- C9: an observation whose source id is absent from the quality-score
map is given quality exactly 0.5 and still contributes to its group — in
particular merging (80, unknown source) with (20, quality 1.0) yields
(80·0.5 + 20·1)/(0.5 + 1) = 40, rather than dropping the observation or
failing. -/
theorem claim9_missing_quality_default :
    (∀ (qs : List (String × ℚ)) (sid : String), (∀ p ∈ qs, p.1 ≠ sid) →
       lookupQuality qs sid = 1/2) ∧
    (∀ (ews : List ExtractedWeightE) (qs : List (String × ℚ))
        (ew : ExtractedWeightE), ew ∈ ews → (∀ p ∈ qs, p.1 ≠ ew.source_id) →
       (⟨ew.weight, 1/2, ew.min_tier, ew.category, ew.source_id⟩ : ObsEntry) ∈
         groupEntriesFor ews qs (ew.affix_id, ew.phase)) ∧
    (mergeE cfgDefault c9ews c9qs none).map (fun r => r.weight) = [40] := by
  refine ⟨lookupQuality_eq_half, ?_, ?_⟩
  · intro ews qs ew hew hq
    unfold groupEntriesFor
    refine List.mem_map.2 ⟨ew, List.mem_filter.2 ⟨hew, by simp⟩, ?_⟩
    rw [lookupQuality_eq_half qs ew.source_id hq]
  · have hkeys : groupKeysOf c9ews = [(4, "starter")] := by
      simp [groupKeysOf, c9ews]
    have hentries : groupEntriesFor c9ews c9qs (4, "starter") =
        [⟨80, 1/2, none, "strong", "mystery"⟩, ⟨20, 1, none, "filler", "known"⟩] := by
      simp [groupEntriesFor, c9ews, c9qs, lookupQuality]
    simp only [mergeE, hkeys, List.map_cons, List.map_nil, hentries, mkConsensusWeight]
    norm_num [consensusWeightVal, survivingWeights, survivingQualities, outlierFilter,
      outlierLoopItems, outlierStep, weightedAverage, roundQ2]

/-- C9 witness: the default-quality statement applied to the source
"mystery", absent from the quality map [("known", 1)], and the
group-membership statement applied to the first of `c9ews`. -/
theorem claim9_missing_quality_default_witness :
    lookupQuality c9qs "mystery" = 1/2 ∧
    (⟨80, 1/2, none, "strong", "mystery"⟩ : ObsEntry) ∈
      groupEntriesFor c9ews c9qs (4, "starter") := by
  constructor
  · exact claim9_missing_quality_default.1 c9qs "mystery" (by decide)
  · exact claim9_missing_quality_default.2.1 c9ews c9qs
      ⟨4, "starter", 80, none, "strong", "tier_translation", "mystery"⟩
      (List.mem_cons_self _ _) (by decide)

/-- C8 witness: the characterization applied at specificity 1 with source
counts 3 (high), 2 (medium) and 1 (low). -/
theorem claim8_confidence_label_witness :
    (confidenceStr 1 3 = "high" ↔ ((1 : ℚ) ≤ 1 ∧ 3 ≤ 3)) ∧
    (2 ≤ 2 ∧ ¬ ((1 : ℚ) ≤ 1 ∧ 3 ≤ 2)) ∧
    confidenceStr 1 2 = "medium" ∧
    confidenceStr 1 1 = "low" := by
  refine ⟨claim8_confidence_label.1 1 3, ⟨le_refl 2, by norm_num⟩, ?_, ?_⟩
  · exact claim8_confidence_label.2.2.1 1 2 (le_refl 2) (by norm_num)
  · exact claim8_confidence_label.2.2.2.1 1

end Mars
